import Mathlib

/-!
Verification of the pkgz/websocket server-side WebSocket application layer.

The definitions below shallowly embed the current version of the code:
the Server read loop and dispatch (`Server.Handler`, `Server.processMessage`,
`Server.Shutdown`, `Server.Count`, `Server.SendTo`), the connection
operations (`Conn.Emit`, `Conn.Close`) and the channel operations
(`Channel.Emit`, `Channel.Remove`, `Channel.Count`).

Bytes are modelled as `Nat`, byte strings as `List Nat`.  External
collaborators that the repository consumes (the gobwas/ws frame codec's
header check, its incremental UTF-8 validator, and encoding/json) are
modelled faithfully to their documented semantics where the repository's
behaviour depends on them.
-/

/-- Incremental UTF-8 acceptor, modelling wsutil's UTF8Reader DFA
(RFC 3629: rejects overlong encodings, surrogates and code points above
U+10FFFF).  State 0 is the rune boundary; states 1-3 expect that many
plain continuation bytes; states 4-7 are the constrained second-byte
states for E0, ED, F0 and F4 lead bytes. -/

def utf8Step : Nat → Nat → Option Nat
  | 0, b =>
    if b < 0x80 then some 0
    else if 0xC2 ≤ b ∧ b ≤ 0xDF then some 1
    else if b = 0xE0 then some 4
    else if (0xE1 ≤ b ∧ b ≤ 0xEC) ∨ b = 0xEE ∨ b = 0xEF then some 2
    else if b = 0xED then some 5
    else if b = 0xF0 then some 6
    else if 0xF1 ≤ b ∧ b ≤ 0xF3 then some 3
    else if b = 0xF4 then some 7
    else none
  | 1, b => if 0x80 ≤ b ∧ b ≤ 0xBF then some 0 else none
  | 2, b => if 0x80 ≤ b ∧ b ≤ 0xBF then some 1 else none
  | 3, b => if 0x80 ≤ b ∧ b ≤ 0xBF then some 2 else none
  | 4, b => if 0xA0 ≤ b ∧ b ≤ 0xBF then some 1 else none
  | 5, b => if 0x80 ≤ b ∧ b ≤ 0x9F then some 1 else none
  | 6, b => if 0x90 ≤ b ∧ b ≤ 0xBF then some 2 else none
  | 7, b => if 0x80 ≤ b ∧ b ≤ 0x8F then some 2 else none
  | _, _ => none

/-- Feed a chunk of bytes to the UTF-8 acceptor; `none` is the eager
invalid-sequence error wsutil's UTF8Reader.Read reports mid-stream. -/

def utf8Feed (s : Nat) : List Nat → Option Nat
  | [] => some s
  | b :: bs =>
    match utf8Step s b with
    | none => none
    | some s' => utf8Feed s' bs

/-- A byte string is valid UTF-8 iff the acceptor consumes it from the
boundary state and ends on a boundary (UTF8Reader.Valid). -/

def utf8Valid (bs : List Nat) : Bool := utf8Feed 0 bs == some 0

/-- RFC 6455 frame opcodes used by the loop. -/

inductive OpCode
  | cont | text | binary | close | ping | pong
deriving DecidableEq, Repr

def OpCode.isControl : OpCode → Bool
  | .close | .ping | .pong => true
  | _ => false

/-- One wire frame as delivered by the (assumed-correct) frame codec:
opcode, FIN flag, mask flag and the unmasked payload bytes. -/

structure Frame where
  opCode : OpCode
  fin : Bool
  masked : Bool
  payload : List Nat
deriving DecidableEq, Repr

/-- Modelled external collaborator: gobwas ws.CheckHeader for the
server-side state.  Client frames must be masked; control frames must be
final with payload at most 125 bytes; a data frame other than a
continuation is rejected while fragmented, a continuation is rejected
while not fragmented. -/

def checkHeader (f : Frame) (fragmented : Bool) : Bool :=
  f.masked &&
    (if f.opCode.isControl then f.fin && decide (f.payload.length ≤ 125)
     else if fragmented then f.opCode == .cont
     else !(f.opCode == .cont))

/-- Observable actions of one iteration of the read loop in
Server.Handler: a Pong reply to a Ping, a call to Server.processMessage
(with the header's opcode and FIN and the frame's own payload), or the
dropConn path that deregisters the connection and ends the loop. -/

inductive HEvent
  | pongSent (payload : List Nat)
  | dispatched (op : OpCode) (fin : Bool) (payload : List Nat)
  | dropped
deriving DecidableEq, Repr

/-- Mutable loop-local state of Server.Handler: the codec's fragmented
bit, the textPending flag and the UTF8Reader's DFA state. -/

structure LoopState where
  fragmented : Bool
  textPending : Bool
  utf8 : Nat
deriving DecidableEq, Repr

def initialLoopState : LoopState := ⟨false, false, 0⟩

/-- One iteration of the read loop in Server.Handler (current version):
header check, control-frame handling, fragmentation bookkeeping,
incremental UTF-8 validation for text, then dispatch of this frame's
payload to processMessage.  Returns the events of the iteration and
`none` when the loop breaks (dropConn). -/

def handlerStep (st : LoopState) (f : Frame) : List HEvent × Option LoopState :=
  if !checkHeader f st.fragmented then ([.dropped], none) else
  match f.opCode with
  | .ping => ([.pongSent f.payload], some st)
  | .pong => ([], some st)
  | .close => ([.dropped], none)
  | .cont =>
    match (if st.textPending then utf8Feed st.utf8 f.payload else some st.utf8) with
    | none => ([.dropped], none)
    | some u =>
      if f.fin && !(u == 0) then ([.dropped], none)
      else ([.dispatched .cont f.fin f.payload],
            some ⟨(if f.fin then false else st.fragmented),
                  (if f.fin then false else st.textPending), u⟩)
  | .text =>
    match utf8Feed 0 f.payload with
    | none => ([.dropped], none)
    | some u =>
      if f.fin && !(u == 0) then ([.dropped], none)
      else ([.dispatched .text f.fin f.payload],
            some ⟨(if f.fin then st.fragmented else true),
                  (if f.fin then st.textPending else true), u⟩)
  | .binary =>
    ([.dispatched .binary f.fin f.payload],
     some ⟨(if f.fin then st.fragmented else true), st.textPending, st.utf8⟩)

/-- The read loop of Server.Handler over a list of incoming frames,
collecting the observable events until the loop breaks or the input is
exhausted (a live connection blocked on the next read). -/

def handlerLoop : LoopState → List Frame → List HEvent
  | _, [] => []
  | st, f :: fs =>
    match handlerStep st f with
    | (evs, none) => evs
    | (evs, some st') => evs ++ handlerLoop st' fs

/-- The frames of one fragmented logical message: a Text or Binary start
frame with fin=false, continuation frames with fin=false, and a final
continuation with fin=true (all client frames masked). -/

def fragSeq (isText : Bool) (p0 : List Nat) (mids : List (List Nat)) (pf : List Nat) :
    List Frame :=
  ⟨if isText then .text else .binary, false, true, p0⟩ ::
    (mids.map (fun p => ⟨.cont, false, true, p⟩) ++ [⟨.cont, true, true, pf⟩])

/-- The per-frame dispatch trace the loop actually produces for such a
sequence: one processMessage call per frame with that frame's payload. -/

def fragEvents (isText : Bool) (p0 : List Nat) (mids : List (List Nat)) (pf : List Nat) :
    List HEvent :=
  .dispatched (if isText then .text else .binary) false p0 ::
    (mids.map (fun p => .dispatched .cont false p) ++ [.dispatched .cont true pf])

/-- Number of processMessage calls in a trace. -/

def dispatchCount (evs : List HEvent) : Nat :=
  (evs.filter (fun e => match e with | .dispatched _ _ _ => true | _ => false)).length

/-- The payloads handed to processMessage, in order. -/

def dispatchedPayloads : List HEvent → List (List Nat)
  | [] => []
  | .dispatched _ _ p :: rest => p :: dispatchedPayloads rest
  | _ :: rest => dispatchedPayloads rest

/-- Whether a trace ends in the dropConn event. -/

def endsDropped : List HEvent → Bool
  | [] => false
  | [e] => e == .dropped
  | _ :: e :: rest => endsDropped (e :: rest)

/-- JSON values, the common language of the modelled encoding/json
collaborator (payload strings are byte lists, numbers are integers --
fractional literals are outside the fragment this development needs and
make the modelled decoder fail rather than misparse). -/

inductive Jval
  | jnull
  | jbool (b : Bool)
  | jnum (n : Int)
  | jstr (s : List Nat)
  | jarr (xs : List Jval)
  | jobj (fields : List (List Nat × Jval))
deriving Repr

def hexDigitByte (n : Nat) : Nat := if n < 10 then 48 + n else 87 + n

/-- encoding/json string escaping: quote, backslash, newline, carriage
return and tab get two-byte escapes, other control bytes and the
HTML-escaped <, > and & become lowercase \u00xx sequences, everything
else is emitted verbatim. -/

def escByte (b : Nat) : List Nat :=
  if b = 34 then [92, 34]
  else if b = 92 then [92, 92]
  else if b = 10 then [92, 110]
  else if b = 13 then [92, 114]
  else if b = 9 then [92, 116]
  else if b < 32 ∨ b = 60 ∨ b = 62 ∨ b = 38 then
    [92, 117, 48, 48, hexDigitByte (b / 16), hexDigitByte (b % 16)]
  else [b]

def escString (s : List Nat) : List Nat := (s.map escByte).flatten

def natDigits (n : Nat) : List Nat := (Nat.toDigits 10 n).map Char.toNat

mutual
/-- encoding/json serialization (json.Marshal) of a JSON value: compact
rendering, struct fields in declaration order. -/
def jrender : Jval → List Nat
  | .jnull => [110, 117, 108, 108]
  | .jbool true => [116, 114, 117, 101]
  | .jbool false => [102, 97, 108, 115, 101]
  | .jnum n => if n < 0 then 45 :: natDigits n.natAbs else natDigits n.natAbs
  | .jstr s => 34 :: (escString s ++ [34])
  | .jarr xs => 91 :: (jrenderElems xs ++ [93])
  | .jobj fs => 123 :: (jrenderFields fs ++ [125])

def jrenderElems : List Jval → List Nat
  | [] => []
  | [x] => jrender x
  | x :: y :: rest => jrender x ++ (44 :: jrenderElems (y :: rest))

def jrenderFields : List (List Nat × Jval) → List Nat
  | [] => []
  | [(k, v)] => 34 :: (escString k ++ (34 :: 58 :: jrender v))
  | (k, v) :: f :: rest =>
    (34 :: (escString k ++ (34 :: 58 :: jrender v))) ++ (44 :: jrenderFields (f :: rest))
end

def isWsByte (b : Nat) : Bool := b == 32 || b == 9 || b == 10 || b == 13

def skipWs : List Nat → List Nat
  | [] => []
  | b :: rest => if isWsByte b then skipWs rest else b :: rest

def hexVal (b : Nat) : Option Nat :=
  if 48 ≤ b ∧ b ≤ 57 then some (b - 48)
  else if 97 ≤ b ∧ b ≤ 102 then some (b - 87)
  else if 65 ≤ b ∧ b ≤ 70 then some (b - 55)
  else none

def utf8Encode (n : Nat) : List Nat :=
  if n < 0x80 then [n]
  else if n < 0x800 then [0xC0 + n / 64, 0x80 + n % 64]
  else [0xE0 + n / 4096, 0x80 + (n / 64) % 64, 0x80 + n % 64]

def unescapeSimple (e : Nat) : Option Nat :=
  if e = 34 then some 34
  else if e = 92 then some 92
  else if e = 47 then some 47
  else if e = 98 then some 8
  else if e = 102 then some 12
  else if e = 110 then some 10
  else if e = 114 then some 13
  else if e = 116 then some 9
  else none

/-- JSON string body after the opening quote: bytes up to the closing
quote, resolving escapes (surrogate pairs are outside the needed
fragment and fail rather than misparse). -/

def parseStringBody : List Nat → Option (List Nat × List Nat)
  | [] => none
  | b :: rest =>
    if b = 34 then some ([], rest)
    else if b = 92 then
      match rest with
      | 117 :: h1 :: h2 :: h3 :: h4 :: rest3 =>
        match hexVal h1, hexVal h2, hexVal h3, hexVal h4 with
        | some v1, some v2, some v3, some v4 =>
          match parseStringBody rest3 with
          | some (s, r) => some (utf8Encode (v1 * 4096 + v2 * 256 + v3 * 16 + v4) ++ s, r)
          | none => none
        | _, _, _, _ => none
      | e :: rest2 =>
        match unescapeSimple e with
        | some c =>
          match parseStringBody rest2 with
          | some (s, r) => some (c :: s, r)
          | none => none
        | none => none
      | [] => none
    else if b < 32 then none
    else
      match parseStringBody rest with
      | some (s, r) => some (b :: s, r)
      | none => none

def isDigitByte (b : Nat) : Bool := decide (48 ≤ b) && decide (b ≤ 57)

def parseNatLoop : List Nat → Nat → Nat × List Nat
  | [], acc => (acc, [])
  | b :: rest, acc =>
    if isDigitByte b then parseNatLoop rest (acc * 10 + (b - 48)) else (acc, b :: rest)

def numTailOk : List Nat → Bool
  | [] => true
  | c :: _ => !(c == 46 || c == 101 || c == 69)

mutual
/-- Recursive-descent JSON reader modelling json.Unmarshal's grammar on
the fragment this system exchanges; fuel bounds nesting depth. -/
def parseVal : Nat → List Nat → Option (Jval × List Nat)
  | 0, _ => none
  | fuel + 1, bs =>
    match skipWs bs with
    | [] => none
    | b :: rest =>
      if b = 34 then
        match parseStringBody rest with
        | some (s, r) => some (.jstr s, r)
        | none => none
      else if b = 123 then
        match parseFields fuel (skipWs rest) true with
        | some (fs, r) => some (.jobj fs, r)
        | none => none
      else if b = 91 then
        match parseItems fuel (skipWs rest) true with
        | some (xs, r) => some (.jarr xs, r)
        | none => none
      else if b = 110 then
        match rest with
        | 117 :: 108 :: 108 :: r => some (.jnull, r)
        | _ => none
      else if b = 116 then
        match rest with
        | 114 :: 117 :: 101 :: r => some (.jbool true, r)
        | _ => none
      else if b = 102 then
        match rest with
        | 97 :: 108 :: 115 :: 101 :: r => some (.jbool false, r)
        | _ => none
      else if b = 45 then
        match rest with
        | d :: r2 =>
          if isDigitByte d then
            let p := parseNatLoop r2 (d - 48)
            if numTailOk p.2 then some (.jnum (-(p.1 : Int)), p.2) else none
          else none
        | [] => none
      else if isDigitByte b then
        let p := parseNatLoop rest (b - 48)
        if numTailOk p.2 then some (.jnum (p.1 : Int), p.2) else none
      else none

def parseFields : Nat → List Nat → Bool → Option (List (List Nat × Jval) × List Nat)
  | 0, _, _ => none
  | fuel + 1, bs, first =>
    match bs with
    | [] => none
    | b :: rest =>
      if b = 125 then (if first then some ([], rest) else none)
      else if b = 34 then
        match parseStringBody rest with
        | none => none
        | some (k, r1) =>
          match skipWs r1 with
          | [] => none
          | c :: r2 =>
            if c = 58 then
              match parseVal fuel r2 with
              | none => none
              | some (v, r3) =>
                match skipWs r3 with
                | [] => none
                | c2 :: r4 =>
                  if c2 = 44 then
                    match parseFields fuel (skipWs r4) false with
                    | some (fs, r5) => some ((k, v) :: fs, r5)
                    | none => none
                  else if c2 = 125 then some ([(k, v)], r4)
                  else none
            else none
      else none

def parseItems : Nat → List Nat → Bool → Option (List Jval × List Nat)
  | 0, _, _ => none
  | fuel + 1, bs, first =>
    match bs with
    | 93 :: rest => if first then some ([], rest) else none
    | _ =>
      match parseVal fuel bs with
      | some (v, r1) =>
        match skipWs r1 with
        | 44 :: r2 =>
          match parseItems fuel (skipWs r2) false with
          | some (xs, r3) => some (v :: xs, r3)
          | none => none
        | 93 :: r2 => some ([v], r2)
        | _ => none
      | none => none
end

/-- json.Unmarshal of a whole byte string: one value, nothing but
whitespace after it. -/

def jparse (bs : List Nat) : Option Jval :=
  match parseVal (bs.length + 8) bs with
  | some (v, rest) => if (skipWs rest).isEmpty then some v else none
  | none => none

def nameKey : List Nat := [110, 97, 109, 101]

def dataKey : List Nat := [100, 97, 116, 97]

/-- json.Unmarshal of a decoded JSON value into the anonymous struct
`{Name string, Data any}` used in Server.processMessage: only a JSON
object (or null) decodes; a non-string, non-null `name` field is a type
error; the `data` field accepts any value; later duplicate keys
overwrite earlier ones; unknown keys are ignored. -/

def decodeFields : List (List Nat × Jval) → List Nat → Jval → Option (List Nat × Jval)
  | [], nm, d => some (nm, d)
  | (k, v) :: rest, nm, d =>
    if k = nameKey then
      match v with
      | .jstr s => decodeFields rest s d
      | .jnull => decodeFields rest nm d
      | _ => none
    else if k = dataKey then decodeFields rest nm v
    else decodeFields rest nm d

def decodeEnvelope : Jval → Option (List Nat × Jval)
  | .jnull => some ([], .jnull)
  | .jobj fields => decodeFields fields [] .jnull
  | _ => none

/-- Frame header as built by Conn.Emit and consumed by
Server.processMessage. -/

structure WsHeader where
  fin : Bool
  opCode : OpCode
  masked : Bool
  length : Nat
deriving DecidableEq, Repr

/-- Go values an application hands to Conn.Emit as the `data`
parameter. -/

inductive GoVal
  | bytes (bs : List Nat)
  | str (s : List Nat)
  | int (n : Int)
deriving DecidableEq, Repr

def b64Char (n : Nat) : Nat :=
  if n < 26 then 65 + n
  else if n < 52 then 97 + (n - 26)
  else if n < 62 then 48 + (n - 52)
  else if n = 62 then 43
  else 47

/-- Standard base64 with padding, which json.Marshal applies to []byte
values. -/

def base64 : List Nat → List Nat
  | [] => []
  | [a] => [b64Char (a / 4), b64Char (a % 4 * 16), 61, 61]
  | [a, b] => [b64Char (a / 4), b64Char (a % 4 * 16 + b / 16), b64Char (b % 16 * 4), 61]
  | a :: b :: c :: rest =>
    b64Char (a / 4) :: b64Char (a % 4 * 16 + b / 16) :: b64Char (b % 16 * 4 + c / 64) ::
      b64Char (c % 64) :: base64 rest

/-- json.Marshal of an `interface{}` value: []byte is base64-encoded into
a JSON string, a Go string stays a string, an integer stays a number. -/

def marshalGoVal : GoVal → Jval
  | .bytes bs => .jstr (base64 bs)
  | .str s => .jstr s
  | .int n => .jnum n

/-- Conn.Emit (current version): marshal the anonymous envelope struct
`{Name: name, Data: data}` with json tags name/data, and build a single
frame header with fin=true whose opcode is Binary unless the package
flag TextMessage is set. -/

def connEmitWire (textMessage : Bool) (name : List Nat) (data : GoVal) :
    WsHeader × List Nat :=
  let b := jrender (.jobj [(nameKey, .jstr name), (dataKey, marshalGoVal data)])
  (⟨true, if textMessage then .text else .binary, false, b.length⟩, b)

/-- Where Server.processMessage routes a frame: the pluggable onMessage
raw handler (default: echo the frame back), or a named callback with the
re-marshalled data bytes. -/

inductive Dispatch
  | rawEcho (h : WsHeader) (b : List Nat)
  | callback (name : List Nat) (data : List Nat)
deriving DecidableEq, Repr

/-- Server.processMessage (current version): empty payloads and frames
that are neither Binary nor Text go to the raw handler; otherwise the
payload is json.Unmarshal'ed into a `{Name string, Data any}` envelope,
and when that succeeds and a callback is registered under the name, the
callback receives the name and json.Marshal of the decoded data;
every other case goes to the raw handler. -/

def processMessage (callbacks : List (List Nat)) (h : WsHeader) (b : List Nat) :
    Dispatch :=
  if b.isEmpty then .rawEcho h b
  else if !(h.opCode == .binary) && !(h.opCode == .text) then .rawEcho h b
  else
    match (jparse b).bind decodeEnvelope with
    | some (nm, d) =>
      if callbacks.contains nm then .callback nm (jrender d)
      else .rawEcho h b
    | none => .rawEcho h b

/-- Bytes that JSON encoding emits verbatim and the reader consumes
verbatim inside a string literal: printable ASCII except the quote, the
backslash and the HTML-escaped characters. -/

def PlainByte (b : Nat) : Bool :=
  decide (32 ≤ b ∧ b < 127 ∧ b ≠ 34 ∧ b ≠ 92 ∧ b ≠ 60 ∧ b ≠ 62 ∧ b ≠ 38)

abbrev AllPlain (s : List Nat) : Prop := ∀ b ∈ s, PlainByte b = true

/-- State of one underlying net.Conn socket (external collaborator):
whether writes on it succeed and the error its Close() returns. -/

structure SockState where
  writeOk : Bool
  closeErr : Option String
deriving DecidableEq, Repr

/-- Conn (current version): the identity of the connection (modelling
the Go pointer), the socket pointer (none models the nil pointer Close
leaves behind) and the number of values sent into the buffered done
channel that stops the ping ticker. -/

structure ConnState where
  id : Nat
  sock : Option SockState
  doneSignals : Nat
deriving DecidableEq, Repr

/-- What one call of Conn.Close returns and does: the new connection
state, the returned error, and whether the underlying socket Close was
actually invoked. -/

structure CloseResult where
  conn : ConnState
  err : Option String
  closedSocket : Bool
deriving DecidableEq, Repr

/-- Conn.Close (current version): under the connection mutex, return a
nil error immediately when the socket pointer is already nil; otherwise
signal the done channel, close the socket, nil the pointer and return
the socket's close error. -/

def Conn.close (c : ConnState) : CloseResult :=
  match c.sock with
  | none => ⟨c, none, false⟩
  | some sk => ⟨{ c with sock := none, doneSignals := c.doneSignals + 1 }, sk.closeErr, true⟩

/-- Whether Conn.Emit on this connection returns nil (socket present and
writable). -/

def connWriteOk (c : ConnState) : Bool :=
  match c.sock with
  | some sk => sk.writeOk
  | none => false

/-- Whether Conn.Emit on this connection returns a write error (socket
present but the write fails). -/

def connWriteFails (c : ConnState) : Bool :=
  match c.sock with
  | some sk => !sk.writeOk
  | none => false

/-- Channel (current version): id and the membership map, modelled as a
list of connection states in iteration order. -/

structure ChannelState where
  id : List Nat
  members : List ConnState
deriving DecidableEq, Repr

/-- The member loop of Channel.Emit (current version): emit to each
member in order; when the member's emit fails, Close it and Remove it
from the channel, continuing with the rest.  Returns the surviving
membership and the members that were successfully sent the message;
`none` models the nil-pointer dereference Conn.Write would hit on an
already-nil socket. -/

def Channel.emitGo : List ConnState → Option (List ConnState × List ConnState)
  | [] => some ([], [])
  | m :: ms =>
    match m.sock with
    | none => none
    | some sk =>
      match Channel.emitGo ms with
      | none => none
      | some (rest, sent) =>
        if sk.writeOk then some (m :: rest, m :: sent)
        else some (rest, sent)

/-- Channel.Emit (current version); the name/data arguments do not
influence which members fail (that is the socket's state). -/

def Channel.emit (ch : ChannelState) (_name : List Nat) (_data : GoVal) :
    Option (ChannelState × List ConnState) :=
  (Channel.emitGo ch.members).map (fun p => ({ ch with members := p.1 }, p.2))

/-- Channel.Remove (current version): delete the connection from the
membership map.  The Go method has no return value at all. -/

def Channel.remove (ch : ChannelState) (cid : Nat) : ChannelState :=
  { ch with members := ch.members.filter (fun m => m.id != cid) }

/-- A Remove call as its caller observes it: the new channel state plus
whether the call reported an error — false on every path, because the
method's signature has no error result. -/

def Channel.removeCall (ch : ChannelState) (cid : Nat) : ChannelState × Bool :=
  (Channel.remove ch cid, false)

/-- Channel.Count (current version): the number of members whose
underlying socket is still live (con.conn != nil). -/

def Channel.count (ch : ChannelState) : Nat :=
  (ch.members.filter (fun m => m.sock.isSome)).length

/-- Server (current version): the connection registry, the channel
registry and the done flag that Shutdown sets. -/

structure ServerState where
  connections : List ConnState
  channels : List (List Nat × ChannelState)
  done : Bool
deriving DecidableEq, Repr

/-- Server.Count: the size of the connection registry. -/

def Server.count (s : ServerState) : Nat := s.connections.length

/-- Server.IsClosed: the done flag. -/

def Server.isClosed (s : ServerState) : Bool := s.done

/-- What Server.Shutdown returns: the new server state and the returned
error. -/

structure ShutdownResult where
  server : ServerState
  err : Option String
deriving DecidableEq, Repr

/-- Server.Shutdown (current version): under the server mutex, invoke
Close on every registered connection whose socket pointer is non-nil,
wait for all of them, set the done flag and return nil.  The connection
map is left as it is: Shutdown deregisters nothing. -/

def Server.shutdown (s : ServerState) : ShutdownResult :=
  ⟨{ s with
      connections :=
        s.connections.map (fun c => if c.sock.isSome then (Conn.close c).conn else c),
      done := true },
    none⟩

/-- What the entry path of Server.Handler produces: the new server state
and whether a connection was registered (the request reached the read
loop). -/

structure HandlerEntry where
  server : ServerState
  registered : Bool
deriving DecidableEq, Repr

/-- The entry path of Server.Handler (current version) before the read
loop: upgrade the HTTP connection, parse the query string, build a fresh
Conn, start its ping ticker and register it via addConn.  The done flag
is never consulted on this path. -/

def Server.handlerEntry (s : ServerState) (upgradeOk : Bool) (queryOk : Bool)
    (fresh : ConnState) : HandlerEntry :=
  if !upgradeOk then ⟨s, false⟩
  else if !queryOk then ⟨s, false⟩
  else ⟨{ s with connections := s.connections ++ [fresh] }, true⟩

/-- Server.SendTo (current version): look the channel up; when it is
present, Channel.Emit the message to its members; in every case return
the "no channel found" error — the nil-channel guard only skips the
emit, never the error.  The outer `none` models the nil-socket panic
path inside Channel.Emit; mutex behaviour is outside this sequential
model. -/

def Server.sendTo (s : ServerState) (id name : List Nat) (msg : GoVal) :
    Option (ServerState × Option String) :=
  match s.channels.find? (fun p => p.1 == id) with
  | some (_, ch) =>
    match Channel.emit ch name msg with
    | none => none
    | some (ch', _) =>
      some ({ s with
               channels := s.channels.map (fun p => if p.1 == id then (p.1, ch') else p) },
            some "no channel found")
  | none => some (s, some "no channel found")

theorem utf8Feed_append (u : Nat) (a b : List Nat) :
    utf8Feed u (a ++ b) = (utf8Feed u a).bind (fun v => utf8Feed v b) := by
  induction a generalizing u with
  | nil => simp [utf8Feed]
  | cons hd tl ih =>
    simp only [List.cons_append, utf8Feed]
    cases utf8Step u hd with
    | none => rfl
    | some s' => exact ih s'

theorem endsDropped_cons (e : HEvent) (l : List HEvent) (h : l ≠ []) :
    endsDropped (e :: l) = endsDropped l := by
  cases l with
  | nil => exact absurd rfl h
  | cons x xs => rfl

theorem checkHeader_cont (fin : Bool) (p : List Nat) (frag : Bool) :
    checkHeader ⟨.cont, fin, true, p⟩ frag = frag := by
  cases frag <;> simp [checkHeader, OpCode.isControl]

theorem checkHeader_text (fin : Bool) (p : List Nat) :
    checkHeader ⟨.text, fin, true, p⟩ false = true := by
  simp [checkHeader, OpCode.isControl]

theorem checkHeader_binary (fin : Bool) (p : List Nat) :
    checkHeader ⟨.binary, fin, true, p⟩ false = true := by
  simp [checkHeader, OpCode.isControl]

theorem contLoop_text_ok (mids : List (List Nat)) (u : Nat) (pf : List Nat)
    (h : utf8Feed u (mids.flatten ++ pf) = some 0) :
    handlerLoop ⟨true, true, u⟩
        (mids.map (fun p => ⟨.cont, false, true, p⟩) ++ [⟨.cont, true, true, pf⟩]) =
      mids.map (fun p => .dispatched .cont false p) ++ [.dispatched .cont true pf] := by
  induction mids generalizing u with
  | nil =>
    simp only [List.flatten_nil, List.nil_append] at h
    simp [handlerLoop, handlerStep, checkHeader_cont, h]
  | cons p ps ih =>
    have h2 : utf8Feed u (p ++ (ps.flatten ++ pf)) = some 0 := by
      simpa [List.flatten_cons, List.append_assoc] using h
    rw [utf8Feed_append] at h2
    cases hu : utf8Feed u p with
    | none => rw [hu] at h2; simp at h2
    | some u1 =>
      rw [hu, Option.some_bind] at h2
      simp only [List.map_cons, List.cons_append]
      simp [handlerLoop, handlerStep, checkHeader_cont, hu]
      exact ih u1 h2

theorem contLoop_binary_ok (mids : List (List Nat)) (pf : List Nat) :
    handlerLoop ⟨true, false, 0⟩
        (mids.map (fun p => ⟨.cont, false, true, p⟩) ++ [⟨.cont, true, true, pf⟩]) =
      mids.map (fun p => .dispatched .cont false p) ++ [.dispatched .cont true pf] := by
  induction mids with
  | nil => simp [handlerLoop, handlerStep, checkHeader_cont]
  | cons p ps ih =>
    simp only [List.map_cons, List.cons_append]
    simp [handlerLoop, handlerStep, checkHeader_cont]
    exact ih

theorem contLoop_text_bad (mids : List (List Nat)) (u : Nat) (pf : List Nat)
    (h : utf8Feed u (mids.flatten ++ pf) ≠ some 0) :
    endsDropped (handlerLoop ⟨true, true, u⟩
      (mids.map (fun p => ⟨.cont, false, true, p⟩) ++ [⟨.cont, true, true, pf⟩])) = true := by
  induction mids generalizing u with
  | nil =>
    simp only [List.flatten_nil, List.nil_append] at h
    cases hu : utf8Feed u pf with
    | none => simp [handlerLoop, handlerStep, checkHeader_cont, hu, endsDropped]
    | some s =>
      have hs : ¬(s = 0) := by intro h0; exact h (h0 ▸ hu)
      simp [handlerLoop, handlerStep, checkHeader_cont, hu, hs, endsDropped]
  | cons p ps ih =>
    cases hu : utf8Feed u p with
    | none =>
      simp only [List.map_cons, List.cons_append]
      simp [handlerLoop, handlerStep, checkHeader_cont, hu, endsDropped]
    | some u1 =>
      have h' : utf8Feed u1 (ps.flatten ++ pf) ≠ some 0 := by
        intro hc; apply h
        rw [List.flatten_cons, List.append_assoc, utf8Feed_append, hu, Option.some_bind]
        exact hc
      have ihr := ih u1 h'
      have hne : handlerLoop ⟨true, true, u1⟩
          (ps.map (fun p => ⟨.cont, false, true, p⟩) ++ [⟨.cont, true, true, pf⟩]) ≠ [] := by
        intro he; rw [he] at ihr; simp [endsDropped] at ihr
      simp only [List.map_cons, List.cons_append]
      simp [handlerLoop, handlerStep, checkHeader_cont, hu]
      rw [endsDropped_cons _ _ hne]
      exact ihr

/-- C1: for a fragmented logical message (Text or Binary start frame with
fin=false, continuations with fin=false, final continuation with
fin=true) the read loop of Server.Handler performs no reassembly: it
calls processMessage once per frame with that frame's own payload and
opcode (amended claim; the original single-concatenated-dispatch claim
is refuted by c1_counterexample). -/
theorem c1_per_frame_dispatch (isText : Bool) (p0 : List Nat) (mids : List (List Nat))
    (pf : List Nat) (h : isText = true → utf8Valid (p0 ++ (mids.flatten ++ pf)) = true) :
    handlerLoop initialLoopState (fragSeq isText p0 mids pf) =
      fragEvents isText p0 mids pf := by
  cases isText with
  | false =>
    simp only [fragSeq, fragEvents, Bool.false_eq_true, if_false, initialLoopState]
    simp [handlerLoop, handlerStep, checkHeader_binary]
    exact contLoop_binary_ok mids pf
  | true =>
    have hv := h rfl
    simp only [utf8Valid, beq_iff_eq] at hv
    rw [utf8Feed_append] at hv
    cases hu : utf8Feed 0 p0 with
    | none => rw [hu] at hv; simp at hv
    | some u0 =>
      have h' : utf8Feed u0 (mids.flatten ++ pf) = some 0 := by
        rw [hu, Option.some_bind] at hv; exact hv
      simp only [fragSeq, fragEvents, if_true, initialLoopState]
      simp [handlerLoop, handlerStep, checkHeader_text, hu]
      exact contLoop_text_ok mids u0 pf h'

/-- C1 counterexample: a two-fragment text message "h"+"i" produces two
processMessage calls, one per fragment, and the concatenation [104,105]
is never the payload of a single dispatched message — refuting the
claim that exactly one logical message with the concatenated payload is
dispatched. -/
theorem c1_counterexample :
    handlerLoop initialLoopState (fragSeq true [104] [] [105]) =
      [.dispatched .text false [104], .dispatched .cont true [105]] ∧
    dispatchCount (handlerLoop initialLoopState (fragSeq true [104] [] [105])) = 2 ∧
    dispatchedPayloads (handlerLoop initialLoopState (fragSeq true [104] [] [105])) ≠
      [[104, 105]] := by
  refine ⟨by decide, by decide, by decide⟩

/-- C1 witness: the amended per-frame-dispatch theorem instantiated on a
concrete three-fragment text message. -/
theorem c1_witness :
    handlerLoop initialLoopState (fragSeq true [104] [[105]] [33]) =
      fragEvents true [104] [[105]] [33] :=
  c1_per_frame_dispatch true [104] [[105]] [33] (fun _ => by decide)

/-- C5: for a text frame sequence whose fully reassembled payload is not
valid UTF-8 the read loop always drops the connection (the trace ends in
dropConn), and in the unfragmented case no processMessage call occurs at
all; but since the loop dispatches each fragment as it is read, earlier
valid fragments of a fragmented sequence are dispatched before the
invalidity is detected (amended claim; the original no-dispatch claim is
refuted by c5_counterexample). -/
theorem c5_invalid_utf8_drops :
    (∀ (p0 : List Nat) (mids : List (List Nat)) (pf : List Nat),
      utf8Valid (p0 ++ (mids.flatten ++ pf)) = false →
        endsDropped (handlerLoop initialLoopState (fragSeq true p0 mids pf)) = true) ∧
    (∀ p : List Nat, utf8Valid p = false →
      handlerLoop initialLoopState [⟨.text, true, true, p⟩] = [.dropped]) := by
  constructor
  · intro p0 mids pf h
    have hne : utf8Feed 0 (p0 ++ (mids.flatten ++ pf)) ≠ some 0 := by
      intro hc
      rw [utf8Valid, hc] at h
      simp at h
    rw [utf8Feed_append] at hne
    cases hu : utf8Feed 0 p0 with
    | none =>
      simp only [fragSeq, if_true, initialLoopState]
      simp [handlerLoop, handlerStep, checkHeader_text, hu, endsDropped]
    | some u0 =>
      have h' : utf8Feed u0 (mids.flatten ++ pf) ≠ some 0 := by
        intro hc; apply hne; rw [hu, Option.some_bind]; exact hc
      have ihr := contLoop_text_bad mids u0 pf h'
      have hnil : handlerLoop ⟨true, true, u0⟩
          (mids.map (fun p => ⟨.cont, false, true, p⟩) ++ [⟨.cont, true, true, pf⟩]) ≠ [] := by
        intro he; rw [he] at ihr; simp [endsDropped] at ihr
      simp only [fragSeq, if_true, initialLoopState]
      simp [handlerLoop, handlerStep, checkHeader_text, hu]
      rw [endsDropped_cons _ _ hnil]
      exact ihr
  · intro p h
    have hne : utf8Feed 0 p ≠ some 0 := by
      intro hc; rw [utf8Valid, hc] at h; simp at h
    cases hu : utf8Feed 0 p with
    | none => simp [handlerLoop, handlerStep, checkHeader_text, hu]
    | some s =>
      have hs : ¬(s = 0) := by intro h0; exact hne (h0 ▸ hu)
      simp [handlerLoop, handlerStep, checkHeader_text, hu, hs]

/-- C5 counterexample: the two-fragment text sequence with payloads
[194] and [] reassembles to the invalid UTF-8 string [194], yet the loop
dispatches the first fragment to processMessage before detecting the
invalidity on the final frame — refuting "no message dispatch occurs".
The connection is still dropped. -/
theorem c5_counterexample :
    utf8Valid ([194] ++ ([].flatten ++ [])) = false ∧
    handlerLoop initialLoopState (fragSeq true [194] [] []) =
      [.dispatched .text false [194], .dropped] ∧
    dispatchCount (handlerLoop initialLoopState (fragSeq true [194] [] [])) ≠ 0 := by
  refine ⟨by decide, by decide, by decide⟩

/-- C5 witness: both parts of the amended theorem instantiated on
concrete invalid-UTF-8 inputs. -/
theorem c5_witness :
    endsDropped (handlerLoop initialLoopState (fragSeq true [196] [] [])) = true ∧
    handlerLoop initialLoopState [⟨.text, true, true, [255]⟩] = [.dropped] :=
  ⟨c5_invalid_utf8_drops.1 [196] [] [] (by decide),
   c5_invalid_utf8_drops.2 [255] (by decide)⟩

theorem escByte_plain (b : Nat) (h : PlainByte b = true) : escByte b = [b] := by
  simp only [PlainByte, decide_eq_true_eq] at h
  unfold escByte
  split_ifs with g1 g2 g3 g4 g5 g6 <;> first | rfl | omega

theorem escString_plain (s : List Nat) (h : AllPlain s) : escString s = s := by
  induction s with
  | nil => rfl
  | cons b t ih =>
    have hb := h b (List.mem_cons_self b t)
    have ht : AllPlain t := fun x hx => h x (List.mem_cons_of_mem b hx)
    simp only [escString, List.map_cons, List.flatten_cons, escByte_plain b hb]
    simpa [escString] using ih ht

theorem parseStringBody_plain (s rest : List Nat) (h : AllPlain s) :
    parseStringBody (s ++ (34 :: rest)) = some (s, rest) := by
  induction s with
  | nil => rw [List.nil_append, parseStringBody.eq_def]; simp
  | cons b t ih =>
    have hb := h b (List.mem_cons_self b t)
    have ht : AllPlain t := fun x hx => h x (List.mem_cons_of_mem b hx)
    simp only [PlainByte, decide_eq_true_eq] at hb
    have h34 : ¬(b = 34) := by omega
    have h92 : ¬(b = 92) := by omega
    have hlt : ¬(b < 32) := by omega
    rw [List.cons_append, parseStringBody.eq_def]
    simp [h34, h92, hlt, ih ht]

theorem b64Char_plain (n : Nat) : PlainByte (b64Char n) = true := by
  simp only [PlainByte, b64Char, decide_eq_true_eq]
  split_ifs <;> omega

theorem base64_plain : ∀ bs : List Nat, AllPlain (base64 bs)
  | [] => by intro b hb; simp [base64] at hb
  | [a] => by
    intro b hb
    simp only [base64, List.mem_cons, List.not_mem_nil, or_false] at hb
    rcases hb with h | h | h | h <;> subst h <;> first | exact b64Char_plain _ | decide
  | [a, c] => by
    intro b hb
    simp only [base64, List.mem_cons, List.not_mem_nil, or_false] at hb
    rcases hb with h | h | h | h <;> subst h <;> first | exact b64Char_plain _ | decide
  | a :: c :: e :: rest => by
    intro b hb
    simp only [base64, List.mem_cons] at hb
    rcases hb with h | h | h | h | h
    · subst h; exact b64Char_plain _
    · subst h; exact b64Char_plain _
    · subst h; exact b64Char_plain _
    · subst h; exact b64Char_plain _
    · exact base64_plain rest b h

theorem skipWs_nws (b : Nat) (l : List Nat) (h : isWsByte b = false) :
    skipWs (b :: l) = b :: l := by
  rw [skipWs.eq_def]; simp [h]

theorem env_render (nm d : List Nat) (hnm : AllPlain nm) (hd : AllPlain d) :
    jrender (.jobj [(nameKey, .jstr nm), (dataKey, .jstr d)]) =
      123 :: 34 :: 110 :: 97 :: 109 :: 101 :: 34 :: 58 :: 34 ::
        (nm ++ (34 :: 44 :: 34 :: 100 :: 97 :: 116 :: 97 :: 34 :: 58 :: 34 ::
          (d ++ [34, 125]))) := by
  have ek1 : escString [110, 97, 109, 101] = [110, 97, 109, 101] := by decide
  have ek2 : escString [100, 97, 116, 97] = [100, 97, 116, 97] := by decide
  simp [jrender, jrenderFields, ek1, ek2, escString_plain nm hnm, escString_plain d hd,
        nameKey, dataKey]

theorem parseVal_env4 (f : Nat) (nm d : List Nat) (hnm : AllPlain nm) (hd : AllPlain d) :
    parseVal (f + 4)
      (123 :: 34 :: 110 :: 97 :: 109 :: 101 :: 34 :: 58 :: 34 ::
        (nm ++ (34 :: 44 :: 34 :: 100 :: 97 :: 116 :: 97 :: 34 :: 58 :: 34 ::
          (d ++ [34, 125])))) =
      some (.jobj [(nameKey, .jstr nm), (dataKey, .jstr d)], []) := by
  have ps1 : ∀ r : List Nat, parseStringBody (110 :: 97 :: 109 :: 101 :: 34 :: r) =
      some ([110, 97, 109, 101], r) := fun r => by
    have := parseStringBody_plain [110, 97, 109, 101] r (by decide)
    simpa using this
  have ps2 : ∀ r : List Nat, parseStringBody (100 :: 97 :: 116 :: 97 :: 34 :: r) =
      some ([100, 97, 116, 97], r) := fun r => by
    have := parseStringBody_plain [100, 97, 116, 97] r (by decide)
    simpa using this
  have psn : parseStringBody
      (nm ++ (34 :: 44 :: 34 :: 100 :: 97 :: 116 :: 97 :: 34 :: 58 :: 34 :: (d ++ [34, 125]))) =
      some (nm, 44 :: 34 :: 100 :: 97 :: 116 :: 97 :: 34 :: 58 :: 34 :: (d ++ [34, 125])) :=
    parseStringBody_plain nm _ hnm
  have psd : parseStringBody (d ++ (34 :: [125])) = some (d, [125]) :=
    parseStringBody_plain d _ hd
  rw [show f + 4 = (f + 3) + 1 from rfl, parseVal.eq_def]
  simp [skipWs_nws, isWsByte]
  rw [show f + 3 = (f + 2) + 1 from rfl, parseFields.eq_def]
  simp [ps1, skipWs_nws, isWsByte]
  rw [show f + 2 = (f + 1) + 1 from rfl, parseVal.eq_def]
  simp [psn, skipWs_nws, isWsByte]
  rw [parseFields.eq_def]
  simp [ps2, skipWs_nws, isWsByte]
  rw [parseVal.eq_def]
  simp [psd, skipWs_nws, isWsByte, nameKey, dataKey]

theorem jparse_env (nm d : List Nat) (hnm : AllPlain nm) (hd : AllPlain d) :
    jparse (jrender (.jobj [(nameKey, .jstr nm), (dataKey, .jstr d)])) =
      some (.jobj [(nameKey, .jstr nm), (dataKey, .jstr d)]) := by
  have main : ∀ L : Nat, parseVal (L + 8)
      (123 :: 34 :: 110 :: 97 :: 109 :: 101 :: 34 :: 58 :: 34 ::
        (nm ++ (34 :: 44 :: 34 :: 100 :: 97 :: 116 :: 97 :: 34 :: 58 :: 34 ::
          (d ++ [34, 125])))) =
      some (.jobj [(nameKey, .jstr nm), (dataKey, .jstr d)], []) := fun L => by
    rw [show L + 8 = (L + 4) + 4 from by omega]
    exact parseVal_env4 (L + 4) nm d hnm hd
  rw [env_render nm d hnm hd]
  unfold jparse
  rw [main]
  simp [skipWs]

/-- C9: Conn.Emit(name, payload) emits a single frame with fin=true whose
bytes decode on the receiving side (Server.processMessage) to a callback
dispatch under exactly the input name; but the data the callback
receives is the JSON re-encoding of the decoded value — for a []byte
payload, the quoted base64 text — not the raw input payload (amended
claim; payload equality is refuted by c9_counterexample).  Stated for
names whose bytes need no JSON escaping. -/
theorem c9_emit_envelope_roundtrip (nm payload : List Nat) (cbs : List (List Nat))
    (tm : Bool) (hnm : AllPlain nm) (hcb : cbs.contains nm = true) :
    (connEmitWire tm nm (.bytes payload)).1.fin = true ∧
    processMessage cbs (connEmitWire tm nm (.bytes payload)).1
        (connEmitWire tm nm (.bytes payload)).2 =
      .callback nm (34 :: (base64 payload ++ [34])) := by
  constructor
  · rfl
  · have hb64 : AllPlain (base64 payload) := base64_plain payload
    have hj := jparse_env nm (base64 payload) hnm hb64
    have hne : (jrender (.jobj [(nameKey, .jstr nm), (dataKey, .jstr (base64 payload))])).isEmpty
        = false := by
      rw [env_render nm (base64 payload) hnm hb64]; rfl
    simp only [connEmitWire, marshalGoVal, processMessage, hne, hj, Option.some_bind,
               Bool.false_eq_true, if_false]
    have hmem : nm ∈ cbs := by simpa using hcb
    cases tm <;>
      simp [decodeEnvelope, decodeFields, nameKey, dataKey, hmem, jrender,
            escString_plain _ hb64]

/-- C9 counterexample: Emit("e", []byte "hi") produces the envelope
bytes for name "e" and base64 data "aGk="; processMessage dispatches the
callback with the six re-encoded bytes of the quoted base64 string, not
with the original two payload bytes — refuting payload round-tripping. -/
theorem c9_counterexample :
    (connEmitWire false [101] (.bytes [104, 105])).2 =
      [123, 34, 110, 97, 109, 101, 34, 58, 34, 101, 34, 44, 34, 100, 97, 116, 97,
       34, 58, 34, 97, 71, 107, 61, 34, 125] ∧
    processMessage [[101]] (connEmitWire false [101] (.bytes [104, 105])).1
        (connEmitWire false [101] (.bytes [104, 105])).2 =
      .callback [101] [34, 97, 71, 107, 61, 34] ∧
    processMessage [[101]] (connEmitWire false [101] (.bytes [104, 105])).1
        (connEmitWire false [101] (.bytes [104, 105])).2 ≠
      .callback [101] [104, 105] := by
  refine ⟨by decide, by decide, by decide⟩

/-- C9 witness: the amended round-trip theorem instantiated at name "e",
payload "hi", registered callback list [["e"]]. -/
theorem c9_witness :
    (connEmitWire false [101] (.bytes [104, 105])).1.fin = true ∧
    processMessage [[101]] (connEmitWire false [101] (.bytes [104, 105])).1
        (connEmitWire false [101] (.bytes [104, 105])).2 =
      .callback [101] (34 :: (base64 [104, 105] ++ [34])) :=
  c9_emit_envelope_roundtrip [101] [104, 105] [[101]] false (by decide) (by decide)

/-- C4: Server.processMessage does not treat the Binary opcode as
raw-only: a non-empty Binary payload goes through exactly the same
envelope parsing as Text, and when it parses as a JSON envelope whose
name has a registered callback, that callback is dispatched instead of
the raw onMessage handler (amended claim; the original always-raw claim
is refuted by c4_counterexample). -/
theorem c4_binary_envelope_routing (cbs : List (List Nat)) (h : WsHeader) (b : List Nat)
    (nm : List Nat) (dv : Jval) (hop : h.opCode = .binary) (hne : b.isEmpty = false)
    (hdec : (jparse b).bind decodeEnvelope = some (nm, dv))
    (hcb : cbs.contains nm = true) :
    processMessage cbs h b = .callback nm (jrender dv) := by
  have hmem : nm ∈ cbs := by simpa using hcb
  simp [processMessage, hne, hop, hdec, hmem]

/-- C4 counterexample: a Binary frame whose 23-byte payload is the JSON
envelope turning on name "x" with data "y", with callback "x"
registered, is dispatched to the named callback and not to the raw
handler — refuting the claim that Binary payloads always go to the
default/raw handler. -/
theorem c4_counterexample :
    processMessage [[120]] ⟨true, .binary, false, 23⟩
        [123, 34, 110, 97, 109, 101, 34, 58, 34, 120, 34, 44, 34, 100, 97, 116, 97,
         34, 58, 34, 121, 34, 125] =
      .callback [120] [34, 121, 34] ∧
    processMessage [[120]] ⟨true, .binary, false, 23⟩
        [123, 34, 110, 97, 109, 101, 34, 58, 34, 120, 34, 44, 34, 100, 97, 116, 97,
         34, 58, 34, 121, 34, 125] ≠
      .rawEcho ⟨true, .binary, false, 23⟩
        [123, 34, 110, 97, 109, 101, 34, 58, 34, 120, 34, 44, 34, 100, 97, 116, 97,
         34, 58, 34, 121, 34, 125] := by
  refine ⟨by decide, by decide⟩

/-- C4 witness: the amended binary-routing theorem instantiated on the
concrete envelope for name "x". -/
theorem c4_witness :
    ((⟨true, .binary, false, 23⟩ : WsHeader).opCode = .binary ∧
      ([123, 34, 110, 97, 109, 101, 34, 58, 34, 120, 34, 44, 34, 100, 97, 116, 97,
        34, 58, 34, 121, 34, 125] : List Nat).isEmpty = false ∧
      (jparse [123, 34, 110, 97, 109, 101, 34, 58, 34, 120, 34, 44, 34, 100, 97, 116,
        97, 34, 58, 34, 121, 34, 125]).bind decodeEnvelope = some ([120], .jstr [121]) ∧
      ([[120]] : List (List Nat)).contains [120] = true) ∧
    processMessage [[120]] ⟨true, .binary, false, 23⟩
        [123, 34, 110, 97, 109, 101, 34, 58, 34, 120, 34, 44, 34, 100, 97, 116, 97,
         34, 58, 34, 121, 34, 125] =
      .callback [120] (jrender (.jstr [121])) :=
  ⟨⟨rfl, by decide, rfl, by decide⟩,
   c4_binary_envelope_routing [[120]] ⟨true, .binary, false, 23⟩
     [123, 34, 110, 97, 109, 101, 34, 58, 34, 120, 34, 44, 34, 100, 97, 116, 97,
      34, 58, 34, 121, 34, 125] [120] (.jstr [121]) rfl (by decide) rfl (by decide)⟩

/-- C8: Conn.Close is idempotent — after a completed first Close (which
nils the socket pointer), a second Close returns a nil error without
invoking the underlying socket Close again, and leaves the state
unchanged. -/
theorem c8_close_idempotent (c : ConnState) :
    (Conn.close (Conn.close c).conn).err = none ∧
    (Conn.close (Conn.close c).conn).closedSocket = false ∧
    (Conn.close (Conn.close c).conn).conn = (Conn.close c).conn := by
  cases hc : c.sock <;> simp [Conn.close, hc]

/-- C2 amended: Server.Shutdown returns a nil error, sets the done flag
and closes the socket of every registered connection, but it does not
deregister them: Server.Count is unchanged (equal to N, not 0) when
Shutdown returns; deregistration only happens later when each
connection's read loop fails and calls dropConn (amended claim; the
Count()==0 part of the original is refuted by c2_counterexample). -/
theorem c2_shutdown_closes_but_keeps_registry (s : ServerState) :
    (Server.shutdown s).err = none ∧
    (Server.shutdown s).server.done = true ∧
    Server.count (Server.shutdown s).server = Server.count s ∧
    ∀ c ∈ (Server.shutdown s).server.connections, c.sock = none := by
  refine ⟨rfl, rfl, by simp [Server.shutdown, Server.count], ?_⟩
  intro c hc
  simp only [Server.shutdown, List.mem_map] at hc
  obtain ⟨c0, _, heq⟩ := hc
  cases hs : c0.sock with
  | none => rw [← heq]; simp [hs]
  | some sk => rw [← heq]; simp [hs, Conn.close]

/-- C2 counterexample: shutting down a server with 3 registered live
connections leaves Count() at 3, not 0 — refuting the claim that
Count() equals 0 before Shutdown returns. -/
theorem c2_counterexample :
    Server.count (Server.shutdown
      ⟨[⟨1, some ⟨true, none⟩, 0⟩, ⟨2, some ⟨true, none⟩, 0⟩, ⟨3, some ⟨true, none⟩, 0⟩],
        [], false⟩).server = 3 ∧ (3 : Nat) ≠ 0 := by
  refine ⟨by decide, by decide⟩

/-- C2 witness: the amended Shutdown theorem instantiated on the
three-connection server of the spec scenario. -/
theorem c2_witness :
    (Server.shutdown ⟨[⟨1, some ⟨true, none⟩, 0⟩, ⟨2, some ⟨true, none⟩, 0⟩,
        ⟨3, some ⟨true, none⟩, 0⟩], [], false⟩).err = none ∧
    (Server.shutdown ⟨[⟨1, some ⟨true, none⟩, 0⟩, ⟨2, some ⟨true, none⟩, 0⟩,
        ⟨3, some ⟨true, none⟩, 0⟩], [], false⟩).server.done = true ∧
    Server.count (Server.shutdown ⟨[⟨1, some ⟨true, none⟩, 0⟩, ⟨2, some ⟨true, none⟩, 0⟩,
        ⟨3, some ⟨true, none⟩, 0⟩], [], false⟩).server =
      Server.count ⟨[⟨1, some ⟨true, none⟩, 0⟩, ⟨2, some ⟨true, none⟩, 0⟩,
        ⟨3, some ⟨true, none⟩, 0⟩], [], false⟩ :=
  ⟨(c2_shutdown_closes_but_keeps_registry _).1,
   (c2_shutdown_closes_but_keeps_registry
      ⟨[⟨1, some ⟨true, none⟩, 0⟩, ⟨2, some ⟨true, none⟩, 0⟩,
        ⟨3, some ⟨true, none⟩, 0⟩], [], false⟩).2.1,
   (c2_shutdown_closes_but_keeps_registry
      ⟨[⟨1, some ⟨true, none⟩, 0⟩, ⟨2, some ⟨true, none⟩, 0⟩,
        ⟨3, some ⟨true, none⟩, 0⟩], [], false⟩).2.2.1⟩

/-- C3 amended: the entry path of Server.Handler never consults the done
flag — the registration outcome depends only on the upgrade and
query-parse results, the done flag passes through unchanged, and a
request arriving after Shutdown (done = true) is upgraded and registered
exactly as before (amended claim; the original reject-after-shutdown
claim is refuted by c3_counterexample). -/
theorem c3_handler_ignores_done (s : ServerState) (u q : Bool) (fresh : ConnState) :
    (Server.handlerEntry s u q fresh).registered = (u && q) ∧
    Server.count (Server.handlerEntry s u q fresh).server =
      Server.count s + (if u && q then 1 else 0) ∧
    (Server.handlerEntry s u q fresh).server.done = s.done := by
  cases u <;> cases q <;> simp [Server.handlerEntry, Server.count]

/-- C3 counterexample: on a server whose done flag is set (Shutdown
completed), a new request with a successful upgrade is still registered
and Count() becomes 1 — refuting the claim that the upgrade is rejected
and no connection is registered. -/
theorem c3_counterexample :
    Server.isClosed ⟨[], [], true⟩ = true ∧
    (Server.handlerEntry ⟨[], [], true⟩ true true ⟨7, some ⟨true, none⟩, 0⟩).registered
      = true ∧
    Server.count
      (Server.handlerEntry ⟨[], [], true⟩ true true ⟨7, some ⟨true, none⟩, 0⟩).server = 1 := by
  refine ⟨by decide, by decide, by decide⟩

theorem emitGo_all_ok (l : List ConnState) (h : ∀ c ∈ l, connWriteOk c = true) :
    Channel.emitGo l = some (l, l) := by
  induction l with
  | nil => rfl
  | cons m ms ih =>
    have hm := h m (List.mem_cons_self m ms)
    have hms : ∀ c ∈ ms, connWriteOk c = true :=
      fun c hc => h c (List.mem_cons_of_mem m hc)
    cases hs : m.sock with
    | none => simp [connWriteOk, hs] at hm
    | some sk =>
      have hm' : sk.writeOk = true := by simpa [connWriteOk, hs] using hm
      simp [Channel.emitGo, hs, ih hms, hm']

/-- C6: when Channel.Emit fails for exactly one member (its socket
rejects the write) and every other member's emit succeeds, the failed
member is removed from the membership and every other member is still
sent the message, in order. -/
theorem c6_emit_self_healing (pre post : List ConnState) (bad : ConnState)
    (cid name : List Nat) (data : GoVal)
    (hpre : ∀ c ∈ pre, connWriteOk c = true) (hpost : ∀ c ∈ post, connWriteOk c = true)
    (hbad : connWriteFails bad = true) :
    Channel.emit ⟨cid, pre ++ bad :: post⟩ name data =
      some (⟨cid, pre ++ post⟩, pre ++ post) ∧
    (bad ∉ pre ++ post → bad ∉ (pre ++ post : List ConnState)) := by
  refine ⟨?_, fun h => h⟩
  have key : Channel.emitGo (pre ++ bad :: post) = some (pre ++ post, pre ++ post) := by
    induction pre with
    | nil =>
      cases hs : bad.sock with
      | none => simp [connWriteFails, hs] at hbad
      | some sk =>
        have hwk : sk.writeOk = false := by simpa [connWriteFails, hs] using hbad
        simp [Channel.emitGo, hs, emitGo_all_ok post hpost, hwk]
    | cons a pre' ih =>
      have ha := hpre a (List.mem_cons_self a pre')
      have hpre' : ∀ c ∈ pre', connWriteOk c = true :=
        fun c hc => hpre c (List.mem_cons_of_mem a hc)
      cases hs : a.sock with
      | none => simp [connWriteOk, hs] at ha
      | some sk =>
        have ha' : sk.writeOk = true := by simpa [connWriteOk, hs] using ha
        simp [List.cons_append, Channel.emitGo, hs, ih hpre', ha']
  simp [Channel.emit, key]

/-- C6 witness: the self-healing theorem instantiated on a channel with
members 1 (ok), 2 (broken) and 3 (ok). -/
theorem c6_witness :
    Channel.emit ⟨[116], [⟨1, some ⟨true, none⟩, 0⟩, ⟨2, some ⟨false, none⟩, 0⟩,
        ⟨3, some ⟨true, none⟩, 0⟩]⟩ [110] (.int 1) =
      some (⟨[116], [⟨1, some ⟨true, none⟩, 0⟩, ⟨3, some ⟨true, none⟩, 0⟩]⟩,
            [⟨1, some ⟨true, none⟩, 0⟩, ⟨3, some ⟨true, none⟩, 0⟩]) :=
  (c6_emit_self_healing [⟨1, some ⟨true, none⟩, 0⟩] [⟨3, some ⟨true, none⟩, 0⟩]
     ⟨2, some ⟨false, none⟩, 0⟩ [116] [110] (.int 1)
     (by decide) (by decide) (by decide)).1

/-- C7 amended: Channel.Remove has no error result at all — calling it
with a connection that was never added reports no error (the call's
error component is false on every path), leaves the channel unchanged
and leaves Count() unchanged (amended claim; the returns-an-error part
of the original is refuted by c7_counterexample). -/
theorem c7_remove_absent_noop (ch : ChannelState) (cid : Nat)
    (h : ∀ m ∈ ch.members, m.id ≠ cid) :
    Channel.removeCall ch cid = (ch, false) ∧
    Channel.count (Channel.removeCall ch cid).1 = Channel.count ch := by
  have hfix : ch.members.filter (fun m => m.id != cid) = ch.members := by
    rw [List.filter_eq_self]
    intro a ha
    simpa using h a ha
  constructor
  · rw [Channel.removeCall, Channel.remove, hfix]
  · rw [Channel.removeCall, Channel.remove, hfix]

/-- C7 counterexample: removing a connection (id 2) never added to a
one-member channel reports no error — the removeCall error component is
false, refuting the claim that an error is returned — while Count() is
indeed unchanged. -/
theorem c7_counterexample :
    (Channel.removeCall ⟨[116], [⟨1, some ⟨true, none⟩, 0⟩]⟩ 2).2 = false ∧
    Channel.count (Channel.removeCall ⟨[116], [⟨1, some ⟨true, none⟩, 0⟩]⟩ 2).1 =
      Channel.count ⟨[116], [⟨1, some ⟨true, none⟩, 0⟩]⟩ := by
  refine ⟨by decide, by decide⟩

/-- C7 witness: the amended no-op theorem instantiated on the same
one-member channel. -/
theorem c7_witness :
    Channel.removeCall ⟨[116], [⟨1, some ⟨true, none⟩, 0⟩]⟩ 2 =
        (⟨[116], [⟨1, some ⟨true, none⟩, 0⟩]⟩, false) ∧
      Channel.count (Channel.removeCall ⟨[116], [⟨1, some ⟨true, none⟩, 0⟩]⟩ 2).1 =
        Channel.count ⟨[116], [⟨1, some ⟨true, none⟩, 0⟩]⟩ :=
  c7_remove_absent_noop ⟨[116], [⟨1, some ⟨true, none⟩, 0⟩]⟩ 2 (by decide)

/-- C10: Server.SendTo returns the non-nil "no channel found" error on
every path on which it returns — also when the channel exists and the
message was emitted to its members — so it never returns nil. -/
theorem c10_sendto_always_errors (s : ServerState) (id name : List Nat) (msg : GoVal)
    (r : ServerState × Option String) (h : Server.sendTo s id name msg = some r) :
    r.2 = some "no channel found" := by
  unfold Server.sendTo at h
  rcases hf : s.channels.find? (fun p => p.1 == id) with _ | ⟨cid, ch⟩ <;>
    simp only [hf] at h
  · obtain rfl := (Option.some.inj h).symm
    rfl
  · rcases he : Channel.emit ch name msg with _ | ⟨ch', sent⟩ <;> simp only [he] at h
    · exact absurd h (by simp)
    · obtain rfl := (Option.some.inj h).symm
      rfl

/-- C10 witness: SendTo on a server that does have the addressed channel
(one live member, emit succeeds) still returns the "no channel found"
error. -/
theorem c10_witness :
    Server.sendTo ⟨[], [([99], ⟨[99], [⟨1, some ⟨true, none⟩, 0⟩]⟩)], false⟩ [99] [110]
        (.int 1) =
      some ((⟨[], [([99], ⟨[99], [⟨1, some ⟨true, none⟩, 0⟩]⟩)], false⟩ : ServerState),
            some "no channel found") ∧
    ((⟨[], [([99], ⟨[99], [⟨1, some ⟨true, none⟩, 0⟩]⟩)], false⟩ : ServerState),
      (some "no channel found" : Option String)).2 = some "no channel found" :=
  ⟨by decide,
   c10_sendto_always_errors
     ⟨[], [([99], ⟨[99], [⟨1, some ⟨true, none⟩, 0⟩]⟩)], false⟩ [99] [110] (.int 1)
     (⟨[], [([99], ⟨[99], [⟨1, some ⟨true, none⟩, 0⟩]⟩)], false⟩, some "no channel found")
     (by decide)⟩
